import Mathlib

/-!
Shallow embedding of the acquisition state machine of
`src/qudi/logic/scanning_probe_logic.py` (class `ScanningProbeLogic`).

Modelling conventions:
* Python floats are modelled as rationals (all operations used are
  comparisons, `min`/`max` and one division), Python ints as `Int`.
* Python dicts (`self._scan_ranges`, `self._scan_resolution`, input
  mappings) are association lists in insertion order, mirroring the
  iteration order of Python dicts; `dset` mirrors `d[k] = v` (update in
  place when the key exists, append otherwise).
* `module_state` is the two-valued idle/locked flag (`module_locked`).
* Qt signal emissions and log warnings/errors are collected in an
  ordered `List Event` result component.
* Operations that can raise an uncaught Python exception on malformed
  input (`KeyError` from a dict subscript, `IndexError` from a list
  subscript) return `Option`, with `none` standing for the exception.
* The hardware scanner collaborator is a parameter record whose fields
  give the results of `configure_scan`, `start_scan`, `stop_scan` and
  `get_scan_data` for the single call the modelled operation makes.
-/

namespace ScanningProbe

/-- Axis constraint descriptor handed out by the scanner device
(`scanner_constraints.axes` values): value, resolution and frequency
bounds. -/
structure AxisConstraint where
  min_value : ℚ
  max_value : ℚ
  min_resolution : ℤ
  max_resolution : ℤ
  min_frequency : ℚ
  max_frequency : ℚ
deriving DecidableEq

/-- The scanner constraints object: `axisNames` is the iteration order of
the `axes` dict (`self.scanner_constraints.axes`); `axes` is the lookup.
Lookups `ax_constr[ax]` in the source are only reached for axis names the
logic already stores, which were initialised from this very dict. -/
structure ScannerConstraints where
  axisNames : List String
  axes : String → AxisConstraint

/-- The part of a `ScanData` frame the logic reads back from history:
axes in scan order, per-axis range and resolution, frequency, and the
completion flag. -/
structure ScanFrame where
  scan_axes : List String
  scan_range : List (ℚ × ℚ)
  scan_resolution : List ℤ
  scan_frequency : ℚ
  is_finished : Bool
deriving DecidableEq

/-- Partial settings dictionary carried by `sigScanSettingsChanged`. -/
structure SettingsDelta where
  range : Option (List (String × ℚ × ℚ)) := none
  resolution : Option (List (String × ℤ)) := none
  frequency : Option ℚ := none
deriving DecidableEq

/-- Observable side effects of one operation, in emission order. -/
inductive Event where
  | logWarning
  | logError
  | settingsChanged (delta : SettingsDelta)
  | scanStateChanged (running : Bool) (axes : Option (List String))
  | scanDataChanged (data : ScanFrame)
deriving DecidableEq

/-- Which slot the single-shot timer's timeout is connected to. -/
inductive TimerHandler where
  | positionLoop
  | scanLoop
deriving DecidableEq

/-- Mutable state of `ScanningProbeLogic` relevant to the claims. -/
structure LogicState where
  module_locked : Bool
  scan_ranges : List (String × ℚ × ℚ)
  scan_resolution : List (String × ℤ)
  scan_frequency : ℚ
  scan_history : List ScanFrame
  curr_history_index : ℤ
  current_scan : Option (List String)
  scan_update_interval : ℚ
  timer_handler : TimerHandler
  timer_interval : ℚ
deriving DecidableEq

/-- Config options of the module (with defaults 10, 5, 0.25, 1). -/
structure LogicConfig where
  max_history_length : ℕ
  max_scan_update_interval : ℚ
  min_scan_update_interval : ℚ
  position_update_interval : ℚ
deriving DecidableEq

/-- Hardware scanner collaborator: results of the device calls made by
one modelled operation. -/
structure ScanConfig where
  axes : List String
  range : List (ℚ × ℚ)
  resolution : List ℤ
  frequency : ℚ
deriving DecidableEq

/-- The scanner device, as seen through the calls one operation makes. -/
structure Scanner where
  configure_scan : ScanConfig → ScanConfig
  start_scan : ℤ
  stop_scan : ℤ
  get_scan_data : ScanFrame

/-- Python dict lookup on an association list (first match). -/
def dlookup {α : Type} : List (String × α) → String → Option α
  | [], _ => none
  | (k, v) :: rest, key => if key = k then some v else dlookup rest key

/-- Python dict assignment `m[k] = v`: overwrite in place when the key is
present, append otherwise. Dicts cannot hold duplicate keys, so
replacing the first occurrence is exact. -/
def dset {α : Type} : List (String × α) → String → α → List (String × α)
  | [], k, v => [(k, v)]
  | (k0, v0) :: rest, k, v =>
    if k0 = k then (k, v) :: rest else (k0, v0) :: dset rest k v

/-- Python tuple comprehension `tuple(m[ax] for ax in axs)`; `none` when a
`KeyError` would be raised. -/
def lookupAll {α : Type} (m : List (String × α)) : List String → Option (List α)
  | [] => some []
  | ax :: rest =>
    match dlookup m ax, lookupAll m rest with
    | some v, some vs => some (v :: vs)
    | _, _ => none

/-- The clipped range computed by `set_scan_range` (source lines
231-236): clip each bound into `[min_value, max_value]`, then collapse
the high bound onto the low bound if the clipped low exceeds it. -/
def clipRange (c : AxisConstraint) (lo hi : ℚ) : ℚ × ℚ :=
  let nlo := min c.max_value (max c.min_value lo)
  let nhi := min c.max_value (max c.min_value hi)
  if nlo > nhi then (nlo, nlo) else (nlo, nhi)

/-- The `for ax, ax_range in ranges.items()` loop of `set_scan_range`
(source lines 224-237): mutates the stored ranges axis by axis; on the
first axis missing from the stored dict it stops and reports abort
(`true`). -/
def rangeLoop (C : ScannerConstraints) :
    List (String × ℚ × ℚ) → List (String × ℚ × ℚ) →
    List (String × ℚ × ℚ) × Bool
  | [], stored => (stored, false)
  | (ax, r) :: rest, stored =>
    if (dlookup stored ax).isSome then
      rangeLoop C rest (dset stored ax (clipRange (C.axes ax) r.1 r.2))
    else
      (stored, true)

/-- `ScanningProbeLogic.set_scan_range` (source lines 214-241).
Returns the post state, the returned mapping and the emitted events. -/
def set_scan_range (C : ScannerConstraints) (st : LogicState)
    (ranges : List (String × ℚ × ℚ)) :
    LogicState × List (String × ℚ × ℚ) × List Event :=
  if st.module_locked then
    (st, st.scan_ranges,
      [Event.logWarning, Event.settingsChanged { range := some st.scan_ranges }])
  else
    match rangeLoop C ranges st.scan_ranges with
    | (stored, aborted) =>
      let st1 := { st with scan_ranges := stored }
      if aborted then
        (st1, stored, [Event.logError, Event.settingsChanged { range := some stored }])
      else
        let newRanges := stored.filter fun p => ranges.any fun q => q.1 == p.1
        (st1, newRanges, [Event.settingsChanged { range := some newRanges }])

/-- The resolution clip of `set_scan_resolution` (source lines 260-261). -/
def clipResValue (c : AxisConstraint) (r : ℤ) : ℤ :=
  min c.max_resolution (max c.min_resolution r)

/-- The `for ax, ax_res in resolution.items()` loop of
`set_scan_resolution` (source lines 253-261). -/
def resolutionLoop (C : ScannerConstraints) :
    List (String × ℤ) → List (String × ℤ) → List (String × ℤ) × Bool
  | [], stored => (stored, false)
  | (ax, r) :: rest, stored =>
    if (dlookup stored ax).isSome then
      resolutionLoop C rest (dset stored ax (clipResValue (C.axes ax) r))
    else
      (stored, true)

/-- `ScanningProbeLogic.set_scan_resolution` (source lines 243-265). -/
def set_scan_resolution (C : ScannerConstraints) (st : LogicState)
    (resolution : List (String × ℤ)) :
    LogicState × List (String × ℤ) × List Event :=
  if st.module_locked then
    (st, st.scan_resolution,
      [Event.logWarning,
       Event.settingsChanged { resolution := some st.scan_resolution }])
  else
    match resolutionLoop C resolution st.scan_resolution with
    | (stored, aborted) =>
      let st1 := { st with scan_resolution := stored }
      if aborted then
        (st1, stored,
          [Event.logError, Event.settingsChanged { resolution := some stored }])
      else
        let newRes := stored.filter fun p => resolution.any fun q => q.1 == p.1
        (st1, newRes, [Event.settingsChanged { resolution := some newRes }])

/-- One iteration of `set_scan_frequency`'s `min_freq` accumulator
(source lines 280-281): `none` models the `np.inf` start value. -/
def freqMinStep (C : ScannerConstraints) (acc : Option ℚ) (name : String) :
    Option ℚ :=
  match acc with
  | none => some (C.axes name).min_frequency
  | some m =>
    some (if (C.axes name).min_frequency < m then (C.axes name).min_frequency
          else m)

/-- One iteration of `set_scan_frequency`'s `max_freq` accumulator
(source lines 282-283): `none` models the `-np.inf` start value. -/
def freqMaxStep (C : ScannerConstraints) (acc : Option ℚ) (name : String) :
    Option ℚ :=
  match acc with
  | none => some (C.axes name).max_frequency
  | some m =>
    some (if m < (C.axes name).max_frequency then (C.axes name).max_frequency
          else m)

/-- The accumulating loop of `set_scan_frequency` (source lines 278-283):
`min_freq` starts at `+inf` (modelled `none`) and keeps the smallest
`min_frequency`; `max_freq` starts at `-inf` and keeps the largest
`max_frequency`. -/
def freqBounds (C : ScannerConstraints) : Option ℚ × Option ℚ :=
  C.axisNames.foldl
    (fun acc name => (freqMinStep C acc.1 name, freqMaxStep C acc.2 name))
    (none, none)

/-- The acceptance test `min_freq <= frequency <= max_freq` of
`set_scan_frequency` (source line 284); with no axes the test is
`inf <= f <= -inf`, i.e. false. -/
def freqAccepted (C : ScannerConstraints) (f : ℚ) : Bool :=
  match freqBounds C with
  | (some mn, some mx) => decide (mn ≤ f ∧ f ≤ mx)
  | _ => false

/-- `ScanningProbeLogic.set_scan_frequency` (source lines 267-291). -/
def set_scan_frequency (C : ScannerConstraints) (st : LogicState) (f : ℚ) :
    LogicState × ℚ × List Event :=
  if st.module_locked then
    (st, st.scan_frequency,
      [Event.logWarning,
       Event.settingsChanged { frequency := some st.scan_frequency }])
  else
    if freqAccepted C f then
      ({ st with scan_frequency := f }, f,
        [Event.settingsChanged { frequency := some f }])
    else
      (st, st.scan_frequency,
        [Event.logError,
         Event.settingsChanged { frequency := some st.scan_frequency }])

/-- Modelled from the spec: `AxisConstraint.clip_value` lives in the
scanning probe interface module, which is not part of the excerpt; per
spec section 4.3 restored ranges are "clipped against current
constraints", i.e. into `[min_value, max_value]`. -/
def clip_value (c : AxisConstraint) (v : ℚ) : ℚ :=
  min c.max_value (max c.min_value v)

/-- Modelled from the spec: `AxisConstraint.clip_resolution` (same
missing interface module); clips into `[min_resolution, max_resolution]`. -/
def clip_resolution (c : AxisConstraint) (r : ℤ) : ℤ :=
  min c.max_resolution (max c.min_resolution r)

/-- Python list subscript `l[i]` with an `int` index: non-negative
indices count from the front, negative indices from the back; `none`
stands for `IndexError`. -/
def pyGetFrame (l : List ScanFrame) (i : ℤ) : Option ScanFrame :=
  if 0 ≤ i then l.get? i.toNat
  else if 0 ≤ i + l.length then l.get? (i + l.length).toNat else none

/-- The `for i, ax in enumerate(data.scan_axes)` loop of
`restore_from_history` (source lines 518-522): writes clipped resolution
and range for each axis; `none` for an `IndexError` on the frame's lists. -/
def restoreLoop (C : ScannerConstraints) (ress : List ℤ) (rngs : List (ℚ × ℚ)) :
    List (ℕ × String) → LogicState → Option LogicState
  | [], st => some st
  | (i, ax) :: rest, st =>
    match ress.get? i, rngs.get? i with
    | some r, some rg =>
      let c := C.axes ax
      restoreLoop C ress rngs rest
        { st with
          scan_resolution := dset st.scan_resolution ax (clip_resolution c r),
          scan_ranges := dset st.scan_ranges ax (clip_value c rg.1, clip_value c rg.2) }
    | _, _ => none

/-- `ScanningProbeLogic.restore_from_history` (source lines 501-532).
The `isinstance(index, int)` guard always passes (the index is `ℤ` by
typing). -/
def restore_from_history (C : ScannerConstraints) (st : LogicState)
    (index : ℤ) : Option (LogicState × List Event) :=
  if st.module_locked then
    some (st, [Event.logError])
  else
    match pyGetFrame st.scan_history index with
    | none => some (st, [Event.logError])
    | some data =>
      (restoreLoop C data.scan_resolution data.scan_range
          data.scan_axes.enum st).map fun st1 =>
        let st2 := { st1 with
          scan_frequency := data.scan_frequency,
          curr_history_index := index }
        (st2,
          [Event.settingsChanged
            { range := some st2.scan_ranges,
              resolution := some st2.scan_resolution,
              frequency := some st2.scan_frequency },
           Event.scanDataChanged data])

/-- The eviction loop `while len(history) >= max: history.pop(0)`
(source lines 434-435 and 474-475). For `maxLen = 0` the source would
raise `IndexError` once the list is empty; all theorems about it assume
`1 ≤ maxLen` (config default is 10). -/
def popWhileFull (maxLen : ℕ) : List ScanFrame → List ScanFrame
  | [] => []
  | f :: rest =>
    if maxLen ≤ (f :: rest).length then popWhileFull maxLen rest
    else f :: rest

/-- Evict-then-append as performed on scan stop (lines 434-436) and on
scan completion in the poll loop (lines 474-476). -/
def historyAppend (maxLen : ℕ) (h : List ScanFrame) (f : ScanFrame) :
    List ScanFrame :=
  popWhileFull maxLen h ++ [f]

/-- The reconciliation loop `for ax_index, ax in enumerate(scan_axes)` of
`toggle_scan` (source lines 385-399): overwrite stored range/resolution
with the device-accepted values where they differ, emitting one delta per
differing field; `none` for `KeyError`/`IndexError`. -/
def reconcileLoop (newR : List (ℚ × ℚ)) (newRes : List ℤ) :
    List String → ℕ → LogicState → List Event → Option (LogicState × List Event)
  | [], _, st, evs => some (st, evs)
  | ax :: rest, i, st, evs =>
    match dlookup st.scan_ranges ax, newR.get? i with
    | some oldR, some nR =>
      let st1 := if oldR.1 ≠ nR.1 ∨ oldR.2 ≠ nR.2 then
          { st with scan_ranges := dset st.scan_ranges ax nR } else st
      let evs1 := if oldR.1 ≠ nR.1 ∨ oldR.2 ≠ nR.2 then
          evs ++ [Event.settingsChanged { range := some [(ax, nR)] }] else evs
      match dlookup st1.scan_resolution ax, newRes.get? i with
      | some oldS, some nS =>
        let st2 := if oldS ≠ nS then
            { st1 with scan_resolution := dset st1.scan_resolution ax nS } else st1
        let evs2 := if oldS ≠ nS then
            evs1 ++ [Event.settingsChanged { resolution := some [(ax, nS)] }] else evs1
        reconcileLoop newR newRes rest (i + 1) st2 evs2
      | _, _ => none
    | _, _ => none

/-- `ScanningProbeLogic.toggle_scan` (source lines 354-453).
Result: post state, integer return value, emitted events; `none` stands
for an uncaught Python exception. Timer re-pointing is modelled by the
`timer_handler`/`timer_interval` state fields. -/
def toggle_scan (dev : Scanner) (cfg : LogicConfig)
    (st : LogicState) (start : Bool) (scan_axes : Option (List String)) :
    Option (LogicState × ℤ × List Event) :=
  if start = true ∧ st.module_locked = true then
    some (st, 0, [Event.scanStateChanged true st.current_scan])
  else if start = false ∧ st.module_locked = false then
    some (st, 0, [Event.scanStateChanged true st.current_scan])
  else if start = true then
    match scan_axes with
    | none => some (st, -1, [Event.logError])
    | some axs =>
      if ¬ (0 < axs.length ∧ axs.length < 3) then
        some (st, -1, [Event.logError])
      else
        let st1 := { st with module_locked := true, current_scan := some axs }
        match lookupAll st.scan_ranges axs, lookupAll st.scan_resolution axs with
        | some rngs, some ress =>
          let settings : ScanConfig :=
            { axes := axs, range := rngs, resolution := ress,
              frequency := st.scan_frequency }
          let ns := dev.configure_scan settings
          if ns.axes ≠ axs then
            some ({ st1 with module_locked := false }, -1,
              [Event.logError, Event.scanStateChanged false st1.current_scan])
          else
            match reconcileLoop ns.range ns.resolution axs 0 st1 [] with
            | none => none
            | some (st2, evs) =>
              let st3 := if st2.scan_frequency ≠ ns.frequency then
                  { st2 with scan_frequency := ns.frequency } else st2
              let evs3 := if st2.scan_frequency ≠ ns.frequency then
                  evs ++ [Event.settingsChanged { frequency := some ns.frequency }]
                else evs
              match (if 1 < axs.length then
                       axs.head?.bind (dlookup st3.scan_resolution)
                     else some 1) with
              | none => none
              | some lp =>
                let interval := max cfg.min_scan_update_interval
                  (min cfg.max_scan_update_interval ((lp : ℚ) / st3.scan_frequency))
                let st4 := { st3 with scan_update_interval := interval }
                if dev.start_scan < 0 then
                  some ({ st4 with module_locked := false }, -1,
                    evs3 ++ [Event.logError,
                      Event.scanStateChanged false st4.current_scan])
                else
                  some ({ st4 with
                      timer_handler := TimerHandler.scanLoop,
                      timer_interval := interval }, 0,
                    evs3 ++ [Event.scanStateChanged true st4.current_scan])
        | _, _ => none
  else
    let frame := dev.get_scan_data
    let hist := historyAppend cfg.max_history_length st.scan_history frame
    let st1 := { st with
      scan_history := hist,
      curr_history_index := (hist.length : ℤ) - 1 }
    if dev.stop_scan < 0 then
      some (st1, -1,
        [Event.scanDataChanged frame, Event.logError,
         Event.scanStateChanged true st1.current_scan])
    else
      some ({ st1 with
          module_locked := false,
          timer_handler := TimerHandler.positionLoop,
          timer_interval := cfg.position_update_interval }, 0,
        [Event.scanDataChanged frame,
         Event.scanStateChanged false st1.current_scan])

/-- `ScanningProbeLogic._scan_loop` (source lines 455-481): scan polling
tick; on a finished frame it stops the device (failure only logged),
re-points the timer, unlocks, signals, and appends to history. -/
def scan_loop (dev : Scanner) (cfg : LogicConfig) (st : LogicState) :
    LogicState × List Event :=
  if st.module_locked = false then (st, [])
  else
    let d := dev.get_scan_data
    if d.is_finished then
      let evs0 : List Event := if dev.stop_scan < 0 then [Event.logError] else []
      let hist := historyAppend cfg.max_history_length st.scan_history d
      ({ st with
          module_locked := false,
          timer_handler := TimerHandler.positionLoop,
          timer_interval := cfg.position_update_interval,
          scan_history := hist,
          curr_history_index := (hist.length : ℤ) - 1 },
        evs0 ++ [Event.scanStateChanged false st.current_scan,
                 Event.scanDataChanged d])
    else
      (st, [Event.scanDataChanged d])

/-- Spec-side acceptance predicate for `set_frequency`, following the
spec's words for the refinement comparison of claim C2: accepted iff the
value lies in the intersection of every axis's frequency interval, i.e.
`max` of the `min_frequency`s `≤ f ≤` `min` of the `max_frequency`s. -/
def specFrequencyAccepted (C : ScannerConstraints) (f : ℚ) : Bool :=
  decide (C.axisNames ≠ [] ∧
          (∀ n ∈ C.axisNames, (C.axes n).min_frequency ≤ f) ∧
          (∀ n ∈ C.axisNames, f ≤ (C.axes n).max_frequency))

/-! Concrete fixtures for witnesses and counterexamples. -/

/-- Axis name used by concrete fixtures. -/
def xN : String := "x"

/-- Axis name used by concrete fixtures. -/
def yN : String := "y"

/-- An axis name that is not a known axis of the fixtures. -/
def qN : String := "q"

/-- Fixture x axis: values in `[0, 1]`, resolution `[1, 100]`, frequency
`[0, 1]`. -/
def axXc : AxisConstraint := ⟨0, 1, 1, 100, 0, 1⟩

/-- Fixture y axis: values in `[0, 1]`, resolution `[1, 100]`, frequency
`[2, 3]` (disjoint from the x axis's frequency interval). -/
def axYc : AxisConstraint := ⟨0, 1, 1, 100, 2, 3⟩

/-- Fixture constraints with the two axes x and y. -/
def constrW : ScannerConstraints := ⟨[xN, yN], fun n => if n = yN then axYc else axXc⟩

/-- Fixture idle state: full ranges, resolution 50, frequency 7, empty
history. -/
def idleW : LogicState :=
  ⟨false, [(xN, (0, 1)), (yN, (0, 1))], [(xN, 50), (yN, 50)], 7, [], 0,
   none, 0, TimerHandler.positionLoop, 1⟩

/-- Fixture running (locked) state with an active x scan. -/
def runW : LogicState :=
  { idleW with module_locked := true, current_scan := some [xN] }

/-- Fixture finished 1D frame over the x axis with frequency 5. -/
def frameW : ScanFrame := ⟨[xN], [(0, 1)], [20], 5, true⟩

/-- Fixture idle state whose history holds exactly `frameW`. -/
def histW : LogicState := { idleW with scan_history := [frameW] }

/-- Fixture idle state with scan frequency 100. -/
def idleFreq100 : LogicState := { idleW with scan_frequency := 100 }

/-- Fixture device that echoes the configuration and succeeds on
start/stop. -/
def devEchoW : Scanner := ⟨id, 0, 0, frameW⟩

/-- Fixture device whose `stop_scan` fails with -1. -/
def devStopFailW : Scanner := ⟨id, 0, -1, frameW⟩

/-- Fixture config: history bound 10, update interval clamp
`[0.25, 5]`, position poll interval 1. -/
def cfgW : LogicConfig := ⟨10, 5, 1/4, 1⟩

/-! Association-list lemmas for `dlookup`/`dset`. -/

theorem dlookup_dset {α : Type} (m : List (String × α)) (k q : String)
    (v : α) :
    dlookup (dset m k v) q = if q = k then some v else dlookup m q := by
  induction m with
  | nil => simp [dset, dlookup]
  | cons p rest ih =>
    obtain ⟨k0, v0⟩ := p
    by_cases h0 : k0 = k
    · subst h0
      by_cases hq : q = k0
      · subst hq
        simp [dset, dlookup]
      · simp [dset, dlookup, hq]
    · by_cases hq : q = k0
      · subst hq
        simp [dset, dlookup, h0]
      · simp [dset, dlookup, h0, hq, ih]

/-- C9: while the module is locked (Running), `set_scan_range`,
`set_scan_resolution` and `set_scan_frequency` leave the stored settings
untouched, return the unchanged current values, log a warning and re-emit
the current values. -/
theorem settings_mutation_noop_while_running (C : ScannerConstraints)
    (st : LogicState) (rs : List (String × ℚ × ℚ)) (res : List (String × ℤ))
    (f : ℚ) (hrun : st.module_locked = true) :
    set_scan_range C st rs =
      (st, st.scan_ranges,
        [Event.logWarning,
         Event.settingsChanged { range := some st.scan_ranges }]) ∧
    set_scan_resolution C st res =
      (st, st.scan_resolution,
        [Event.logWarning,
         Event.settingsChanged { resolution := some st.scan_resolution }]) ∧
    set_scan_frequency C st f =
      (st, st.scan_frequency,
        [Event.logWarning,
         Event.settingsChanged { frequency := some st.scan_frequency }]) := by
  refine ⟨?_, ?_, ?_⟩ <;>
    simp [set_scan_range, set_scan_resolution, set_scan_frequency, hrun]

theorem settings_mutation_noop_while_running_witness :
    set_scan_range constrW runW [(xN, (0, 1))] =
      (runW, runW.scan_ranges,
        [Event.logWarning,
         Event.settingsChanged { range := some runW.scan_ranges }]) :=
  (settings_mutation_noop_while_running constrW runW [(xN, (0, 1))] [] 0 rfl).1

/-- C10: `toggle_scan` with start=false while Idle returns 0 and changes
nothing, but the emitted state-changed signal carries running=true with
the previously active axes tuple — it does not reflect the Idle state. -/
theorem toggle_scan_stop_while_idle_signals_running (dev : Scanner)
    (cfg : LogicConfig) (st : LogicState) (hidle : st.module_locked = false) :
    toggle_scan dev cfg st false none =
      some (st, 0, [Event.scanStateChanged true st.current_scan]) := by
  simp [toggle_scan, hidle]

theorem toggle_scan_stop_while_idle_signals_running_witness :
    toggle_scan devEchoW cfgW idleW false none =
      some (idleW, 0, [Event.scanStateChanged true idleW.current_scan]) :=
  toggle_scan_stop_while_idle_signals_running devEchoW cfgW idleW rfl

/-- C6: starting while already Running is idempotent — the call returns
success code 0, re-emits Running=true with the active axes tuple and
changes nothing; starting while Idle with no axes or an axes tuple whose
length is not 1 or 2 returns -1 with an error and leaves the state as it
was (Idle). -/
theorem toggle_scan_start_idempotent_and_axes_count (dev : Scanner)
    (cfg : LogicConfig) (st : LogicState) (axsO : Option (List String))
    (axs : List String) :
    (st.module_locked = true →
      toggle_scan dev cfg st true axsO =
        some (st, 0, [Event.scanStateChanged true st.current_scan])) ∧
    (st.module_locked = false →
      toggle_scan dev cfg st true none = some (st, -1, [Event.logError])) ∧
    (st.module_locked = false → (axs.length = 0 ∨ 3 ≤ axs.length) →
      toggle_scan dev cfg st true (some axs) =
        some (st, -1, [Event.logError])) := by
  refine ⟨fun h => ?_, fun h => ?_, fun h hlen => ?_⟩
  · simp [toggle_scan, h]
  · simp [toggle_scan, h]
  · have hnl : ¬ (0 < axs.length ∧ axs.length < 3) := by omega
    simp [toggle_scan, h, hnl]

theorem toggle_scan_start_idempotent_and_axes_count_witness :
    toggle_scan devEchoW cfgW runW true (some [xN]) =
      some (runW, 0, [Event.scanStateChanged true runW.current_scan]) :=
  (toggle_scan_start_idempotent_and_axes_count devEchoW cfgW runW
    (some [xN]) []).1 rfl

theorem toggle_scan_stop_fail_eq (dev : Scanner) (cfg : LogicConfig)
    (st : LogicState) (hrun : st.module_locked = true)
    (hs : dev.stop_scan < 0) :
    toggle_scan dev cfg st false none =
      some ({ st with
          scan_history :=
            historyAppend cfg.max_history_length st.scan_history
              dev.get_scan_data,
          curr_history_index :=
            ((historyAppend cfg.max_history_length st.scan_history
                dev.get_scan_data).length : ℤ) - 1 },
        -1,
        [Event.scanDataChanged dev.get_scan_data, Event.logError,
         Event.scanStateChanged true st.current_scan]) := by
  simp [toggle_scan, hrun, hs]

theorem toggle_scan_stop_success_eq (dev : Scanner) (cfg : LogicConfig)
    (st : LogicState) (hrun : st.module_locked = true)
    (hs : 0 ≤ dev.stop_scan) :
    toggle_scan dev cfg st false none =
      some ({ st with
          module_locked := false,
          scan_history :=
            historyAppend cfg.max_history_length st.scan_history
              dev.get_scan_data,
          curr_history_index :=
            ((historyAppend cfg.max_history_length st.scan_history
                dev.get_scan_data).length : ℤ) - 1,
          timer_handler := TimerHandler.positionLoop,
          timer_interval := cfg.position_update_interval },
        0,
        [Event.scanDataChanged dev.get_scan_data,
         Event.scanStateChanged false st.current_scan]) := by
  simp [toggle_scan, hrun, not_lt.mpr hs]

/-- C5: stopping while Running snapshots the device frame and appends it
to the history ring regardless of completion status; if the device's
stop_scan fails the module stays locked (Running), an error is logged,
Running=true is re-signalled and -1 is returned; only on stop_scan
success does it unlock, re-point the timer to the idle position-poll
handler and interval, signal Running=false and return 0. -/
theorem toggle_scan_stop_failure_keeps_running (dev : Scanner)
    (cfg : LogicConfig) (st : LogicState)
    (hrun : st.module_locked = true) (hmax : 1 ≤ cfg.max_history_length) :
    (dev.stop_scan < 0 →
      toggle_scan dev cfg st false none =
        some ({ st with
            scan_history :=
              historyAppend cfg.max_history_length st.scan_history
                dev.get_scan_data,
            curr_history_index :=
              ((historyAppend cfg.max_history_length st.scan_history
                  dev.get_scan_data).length : ℤ) - 1 },
          -1,
          [Event.scanDataChanged dev.get_scan_data, Event.logError,
           Event.scanStateChanged true st.current_scan])) ∧
    (0 ≤ dev.stop_scan →
      toggle_scan dev cfg st false none =
        some ({ st with
            module_locked := false,
            scan_history :=
              historyAppend cfg.max_history_length st.scan_history
                dev.get_scan_data,
            curr_history_index :=
              ((historyAppend cfg.max_history_length st.scan_history
                  dev.get_scan_data).length : ℤ) - 1,
            timer_handler := TimerHandler.positionLoop,
            timer_interval := cfg.position_update_interval },
          0,
          [Event.scanDataChanged dev.get_scan_data,
           Event.scanStateChanged false st.current_scan])) := by
  exact ⟨toggle_scan_stop_fail_eq dev cfg st hrun,
         toggle_scan_stop_success_eq dev cfg st hrun⟩

theorem toggle_scan_stop_failure_keeps_running_witness :
    toggle_scan devStopFailW cfgW runW false none =
      some ({ runW with
          scan_history :=
            historyAppend cfgW.max_history_length runW.scan_history
              devStopFailW.get_scan_data,
          curr_history_index :=
            ((historyAppend cfgW.max_history_length runW.scan_history
                devStopFailW.get_scan_data).length : ℤ) - 1 },
        -1,
        [Event.scanDataChanged devStopFailW.get_scan_data, Event.logError,
         Event.scanStateChanged true runW.current_scan]) :=
  (toggle_scan_stop_failure_keeps_running devStopFailW cfgW runW rfl
    (by decide)).1 (by decide)

theorem popWhileFull_length_le (m : ℕ) (hm : 1 ≤ m) (h : List ScanFrame) :
    (popWhileFull m h).length ≤ m - 1 := by
  induction h with
  | nil =>
    simp [popWhileFull]
  | cons f rest ih =>
    by_cases hc : m ≤ (f :: rest).length
    · rw [popWhileFull, if_pos hc]
      exact ih
    · rw [popWhileFull, if_neg hc]
      omega

theorem popWhileFull_suffix (m : ℕ) (h : List ScanFrame) :
    (popWhileFull m h).IsSuffix h := by
  induction h with
  | nil => exact List.nil_suffix
  | cons f rest ih =>
    by_cases hc : m ≤ (f :: rest).length
    · rw [popWhileFull, if_pos hc]
      exact ih.trans (List.suffix_cons f rest)
    · rw [popWhileFull, if_neg hc]

/-- C7: after any history append (the stop path of `toggle_scan` or scan
completion inside the `scan_loop` poll handler) the ring length stays at
most max_history_length, eviction drops oldest entries from the front
(what survives eviction is a suffix of the old ring), the new frame lands
at the end, and the cursor is set to the newest index. -/
theorem history_ring_bounded (dev : Scanner) (cfg : LogicConfig)
    (st : LogicState) (h : List ScanFrame) (f : ScanFrame)
    (hmax : 1 ≤ cfg.max_history_length) :
    ((historyAppend cfg.max_history_length h f).length ≤
        cfg.max_history_length ∧
     (popWhileFull cfg.max_history_length h).IsSuffix h ∧
     (historyAppend cfg.max_history_length h f).getLast? = some f) ∧
    (st.module_locked = true →
      ∀ st1 r evs, toggle_scan dev cfg st false none = some (st1, r, evs) →
        st1.scan_history =
          historyAppend cfg.max_history_length st.scan_history
            dev.get_scan_data ∧
        st1.curr_history_index = (st1.scan_history.length : ℤ) - 1) ∧
    (st.module_locked = true → dev.get_scan_data.is_finished = true →
      (scan_loop dev cfg st).1.scan_history =
        historyAppend cfg.max_history_length st.scan_history
          dev.get_scan_data ∧
      (scan_loop dev cfg st).1.curr_history_index =
        ((scan_loop dev cfg st).1.scan_history.length : ℤ) - 1) := by
  refine ⟨⟨?_, popWhileFull_suffix _ h, ?_⟩, ?_, ?_⟩
  · have hlen := popWhileFull_length_le cfg.max_history_length hmax h
    simp only [historyAppend, List.length_append, List.length_singleton]
    omega
  · simp [historyAppend, List.getLast?_concat]
  · intro hrun st1 r evs htog
    by_cases hs : dev.stop_scan < 0
    · have heq := toggle_scan_stop_fail_eq dev cfg st hrun hs
      rw [heq] at htog
      simp only [Option.some.injEq, Prod.mk.injEq] at htog
      obtain ⟨h1, -, -⟩ := htog
      subst h1
      exact ⟨rfl, rfl⟩
    · have heq := toggle_scan_stop_success_eq dev cfg st hrun (not_lt.mp hs)
      rw [heq] at htog
      simp only [Option.some.injEq, Prod.mk.injEq] at htog
      obtain ⟨h1, -, -⟩ := htog
      subst h1
      exact ⟨rfl, rfl⟩
  · intro hrun hfin
    constructor <;> simp [scan_loop, hrun, hfin]

theorem history_ring_bounded_witness :
    (historyAppend cfgW.max_history_length [] frameW).length ≤
      cfgW.max_history_length :=
  ((history_ring_bounded devEchoW cfgW runW [] frameW (by decide)).1).1

theorem rangeLoop_unknown_mid_input (C : ScannerConstraints) :
    ∀ (pre stored : List (String × ℚ × ℚ)) (u : String) (r : ℚ × ℚ)
      (rest : List (String × ℚ × ℚ)),
      (∀ p ∈ pre, (dlookup stored p.1).isSome = true) →
      dlookup stored u = none →
      rangeLoop C (pre ++ (u, r) :: rest) stored =
        ((rangeLoop C pre stored).1, true) := by
  intro pre
  induction pre with
  | nil =>
    intro stored u r rest hknown hu
    simp [rangeLoop, hu]
  | cons p pre ih =>
    intro stored u r rest hknown hu
    obtain ⟨ax, rr⟩ := p
    have hax : (dlookup stored ax).isSome = true := hknown (ax, rr) (by simp)
    have hknown2 : ∀ p ∈ pre,
        (dlookup (dset stored ax (clipRange (C.axes ax) rr.1 rr.2))
          p.1).isSome = true := by
      intro p hp
      rw [dlookup_dset]
      by_cases hpa : p.1 = ax
      · simp [hpa]
      · simpa [hpa] using hknown p (List.mem_cons_of_mem _ hp)
    have hu2 : dlookup (dset stored ax (clipRange (C.axes ax) rr.1 rr.2))
        u = none := by
      rw [dlookup_dset]
      have hne : u ≠ ax := by
        intro hh
        rw [hh] at hu
        rw [hu] at hax
        exact Bool.noConfusion hax
      simp [hne, hu]
    simp only [List.cons_append, rangeLoop, hax, if_true]
    exact ih _ u r rest hknown2 hu2

/-- C1 (amended): a `set_scan_range` call while Idle containing an
unknown axis aborts at the FIRST unknown axis in iteration order: axes
earlier in the mapping have already been clipped and stored (partial
application is possible), the post-mutation stored ranges are returned
and signalled, and an unknown-axis error is reported. When the unknown
axis comes first, no stored range changes. -/
theorem set_scan_range_unknown_axis_mutates_before_abort
    (C : ScannerConstraints) (st : LogicState)
    (pre rest : List (String × ℚ × ℚ)) (u : String) (r : ℚ × ℚ)
    (hidle : st.module_locked = false)
    (hknown : ∀ p ∈ pre, (dlookup st.scan_ranges p.1).isSome = true)
    (hu : dlookup st.scan_ranges u = none) :
    set_scan_range C st (pre ++ (u, r) :: rest) =
      ({ st with scan_ranges := (rangeLoop C pre st.scan_ranges).1 },
       (rangeLoop C pre st.scan_ranges).1,
       [Event.logError,
        Event.settingsChanged
          { range := some ((rangeLoop C pre st.scan_ranges).1) }]) := by
  have habort :=
    rangeLoop_unknown_mid_input C pre st.scan_ranges u r rest hknown hu
  simp [set_scan_range, hidle, habort]

theorem set_scan_range_unknown_axis_mutates_before_abort_witness :
    set_scan_range constrW idleW [(xN, (1, 2)), (qN, (0, 1))] =
      ({ idleW with
          scan_ranges :=
            (rangeLoop constrW [(xN, (1, 2))] idleW.scan_ranges).1 },
       (rangeLoop constrW [(xN, (1, 2))] idleW.scan_ranges).1,
       [Event.logError,
        Event.settingsChanged
          { range :=
              some ((rangeLoop constrW [(xN, (1, 2))]
                idleW.scan_ranges).1) }]) :=
  set_scan_range_unknown_axis_mutates_before_abort constrW idleW
    [(xN, (1, 2))] [] qN (0, 1) rfl (by decide) (by decide)

/-- C1 counterexample: calling `set_scan_range` while Idle with the
mapping x ↦ (1, 2), q ↦ (0, 1), where q is unknown and x precedes it
in iteration order, mutates the stored x range before aborting — the
stored ranges are NOT all the same after the call, contradicting the
claimed all-or-nothing behavior. -/
theorem set_scan_range_atomicity_cex :
    dlookup idleW.scan_ranges xN = some (0, 1) ∧
    dlookup (set_scan_range constrW idleW
        [(xN, (1, 2)), (qN, (0, 1))]).1.scan_ranges xN =
      some (1, 1) ∧
    Event.logError ∈
      (set_scan_range constrW idleW
        [(xN, (1, 2)), (qN, (0, 1))]).2.2 := by
  decide

theorem rangeLoop_known (C : ScannerConstraints) :
    ∀ (rs stored : List (String × ℚ × ℚ)),
      (∀ p ∈ rs, (dlookup stored p.1).isSome = true) →
      (rs.map Prod.fst).Nodup →
      (rangeLoop C rs stored).2 = false ∧
      (∀ ax lo hi, (ax, (lo, hi)) ∈ rs →
        dlookup (rangeLoop C rs stored).1 ax =
          some (clipRange (C.axes ax) lo hi)) ∧
      (∀ q, (∀ p ∈ rs, q ≠ p.1) →
        dlookup (rangeLoop C rs stored).1 q = dlookup stored q) := by
  intro rs
  induction rs with
  | nil =>
    intro stored h hn
    exact ⟨rfl, by simp, fun q _ => rfl⟩
  | cons p rest ih =>
    intro stored h hn
    obtain ⟨ax, lo, hi⟩ := p
    have hax : (dlookup stored ax).isSome = true :=
      h (ax, (lo, hi)) (List.mem_cons_self _ _)
    have hknown2 : ∀ p ∈ rest,
        (dlookup (dset stored ax (clipRange (C.axes ax) lo hi))
          p.1).isSome = true := by
      intro p hp
      rw [dlookup_dset]
      by_cases hpa : p.1 = ax
      · simp [hpa]
      · simpa [hpa] using h p (List.mem_cons_of_mem _ hp)
    have hnd2 : (rest.map Prod.fst).Nodup := by
      rw [List.map_cons, List.nodup_cons] at hn
      exact hn.2
    have haxnot : ax ∉ rest.map Prod.fst := by
      rw [List.map_cons, List.nodup_cons] at hn
      exact hn.1
    obtain ⟨h1, h2, h3⟩ :=
      ih (dset stored ax (clipRange (C.axes ax) lo hi)) hknown2 hnd2
    have hstep : rangeLoop C ((ax, (lo, hi)) :: rest) stored =
        rangeLoop C rest (dset stored ax (clipRange (C.axes ax) lo hi)) := by
      simp only [rangeLoop, hax, if_true]
    refine ⟨by rw [hstep]; exact h1, ?_, ?_⟩
    · intro ax2 lo2 hi2 hmem
      rcases List.mem_cons.mp hmem with heq | hmem2
      · obtain ⟨e1, e2⟩ := Prod.mk.injEq .. ▸ heq
        obtain ⟨e2, e3⟩ := Prod.mk.injEq .. ▸ e2
        subst e1
        subst e2
        subst e3
        rw [hstep]
        have hnotin : ∀ p ∈ rest, ax2 ≠ p.1 := by
          intro p hp hcontra
          exact haxnot (hcontra ▸ List.mem_map_of_mem Prod.fst hp)
        rw [h3 ax2 hnotin, dlookup_dset, if_pos rfl]
      · rw [hstep]
        exact h2 ax2 lo2 hi2 hmem2
    · intro q hq
      have hqr : ∀ p ∈ rest, q ≠ p.1 :=
        fun p hp => hq p (List.mem_cons_of_mem _ hp)
      have hqa : q ≠ ax := hq (ax, (lo, hi)) (by simp)
      rw [hstep, h3 q hqr, dlookup_dset, if_neg hqa]

/-- C8: for every mapping of known (distinct) axes while Idle,
`set_scan_range` stores for each targeted axis its independently clipped
bounds, with the high bound collapsing onto the low bound whenever the
clipped low exceeds the clipped high; untargeted axes are untouched and
no error is reported. The last conjunct spells the clip out via
`clip_value`. -/
theorem set_scan_range_clips_known_axes (C : ScannerConstraints)
    (st : LogicState) (rs : List (String × ℚ × ℚ))
    (hidle : st.module_locked = false)
    (hknown : ∀ p ∈ rs, (dlookup st.scan_ranges p.1).isSome = true)
    (hnd : (rs.map Prod.fst).Nodup) :
    Event.logError ∉ (set_scan_range C st rs).2.2 ∧
    (∀ ax lo hi, (ax, (lo, hi)) ∈ rs →
      dlookup (set_scan_range C st rs).1.scan_ranges ax =
        some (clipRange (C.axes ax) lo hi)) ∧
    (∀ q, (∀ p ∈ rs, q ≠ p.1) →
      dlookup (set_scan_range C st rs).1.scan_ranges q =
        dlookup st.scan_ranges q) ∧
    (∀ c : AxisConstraint, ∀ lo hi : ℚ,
      (clipRange c lo hi).1 = clip_value c lo ∧
      (clipRange c lo hi).2 =
        if clip_value c hi < clip_value c lo then clip_value c lo
        else clip_value c hi) := by
  obtain ⟨h1, h2, h3⟩ := rangeLoop_known C rs st.scan_ranges hknown hnd
  rcases hrl : rangeLoop C rs st.scan_ranges with ⟨stored, ab⟩
  have hab : ab = false := by rw [hrl] at h1; exact h1
  subst hab
  rw [hrl] at h2 h3
  refine ⟨?_, ?_, ?_, ?_⟩
  · simp [set_scan_range, hidle, hrl]
  · intro ax lo hi hmem
    simpa [set_scan_range, hidle, hrl] using h2 ax lo hi hmem
  · intro q hq
    simpa [set_scan_range, hidle, hrl] using h3 q hq
  · intro c lo hi
    rw [clipRange, clip_value, clip_value]
    by_cases hcase :
        min c.max_value (max c.min_value lo) >
          min c.max_value (max c.min_value hi)
    · rw [if_pos hcase]
      exact ⟨rfl, by rw [if_pos hcase]⟩
    · rw [if_neg hcase]
      refine ⟨rfl, ?_⟩
      rw [if_neg (by exact fun hh => hcase hh)]

theorem set_scan_range_clips_known_axes_witness :
    dlookup (set_scan_range constrW idleW
        [(xN, (-1, 2))]).1.scan_ranges xN = some (0, 1) := by
  have h := (set_scan_range_clips_known_axes constrW idleW [(xN, (-1, 2))]
    rfl (by decide) (by decide)).2.1 xN (-1) 2 (by simp)
  rw [h]
  decide

theorem foldl_pair_split {α β γ : Type} (g1 : α → γ → α) (g2 : β → γ → β) :
    ∀ (l : List γ) (a : α) (b : β),
      l.foldl (fun acc n => (g1 acc.1 n, g2 acc.2 n)) (a, b) =
        (l.foldl g1 a, l.foldl g2 b) := by
  intro l
  induction l with
  | nil =>
    intro a b
    rfl
  | cons x xs ih =>
    intro a b
    simp only [List.foldl_cons]
    exact ih (g1 a x) (g2 b x)

theorem freqMinStep_ite_eq_min (C : ScannerConstraints) (x : String) (m : ℚ) :
    freqMinStep C (some m) x = some (min ((C.axes x).min_frequency) m) := by
  rw [freqMinStep]
  rcases lt_or_le ((C.axes x).min_frequency) m with h | h
  · rw [if_pos h, min_eq_left h.le]
  · rw [if_neg (not_lt.mpr h), min_eq_right h]

theorem freqMaxStep_ite_eq_max (C : ScannerConstraints) (x : String) (m : ℚ) :
    freqMaxStep C (some m) x = some (max ((C.axes x).max_frequency) m) := by
  rw [freqMaxStep]
  rcases lt_or_le m ((C.axes x).max_frequency) with h | h
  · rw [if_pos h, max_eq_left h.le]
  · rw [if_neg (not_lt.mpr h), max_eq_right h]

theorem freqMinStep_foldl_le_iff (C : ScannerConstraints) (f : ℚ) :
    ∀ (l : List String) (acc : Option ℚ),
      (∃ mn, l.foldl (freqMinStep C) acc = some mn ∧ mn ≤ f) ↔
        ((∃ mn, acc = some mn ∧ mn ≤ f) ∨
         ∃ n ∈ l, (C.axes n).min_frequency ≤ f) := by
  intro l
  induction l with
  | nil =>
    intro acc
    simp
  | cons x xs ih =>
    intro acc
    rw [List.foldl_cons, ih]
    cases acc with
    | none =>
      have hstep : freqMinStep C none x =
          some ((C.axes x).min_frequency) := rfl
      constructor
      · rintro (⟨mn, hmn, hle⟩ | ⟨n, hn, hle⟩)
        · have he := Option.some.inj (hstep ▸ hmn)
          exact Or.inr ⟨x, List.mem_cons_self _ _, he ▸ hle⟩
        · exact Or.inr ⟨n, List.mem_cons_of_mem _ hn, hle⟩
      · rintro (⟨mn, hmn, -⟩ | ⟨n, hn, hle⟩)
        · exact Option.noConfusion hmn
        · rcases List.mem_cons.mp hn with heq | hn2
          · subst heq
            exact Or.inl ⟨_, hstep, hle⟩
          · exact Or.inr ⟨n, hn2, hle⟩
    | some m =>
      have hstep := freqMinStep_ite_eq_min C x m
      constructor
      · rintro (⟨mn, hmn, hle⟩ | ⟨n, hn, hle⟩)
        · have he := Option.some.inj (hstep ▸ hmn)
          rcases min_le_iff.mp (he ▸ hle) with h | h
          · exact Or.inr ⟨x, List.mem_cons_self _ _, h⟩
          · exact Or.inl ⟨m, rfl, h⟩
        · exact Or.inr ⟨n, List.mem_cons_of_mem _ hn, hle⟩
      · rintro (⟨mn, hmn, hle⟩ | ⟨n, hn, hle⟩)
        · have he := Option.some.inj hmn
          exact Or.inl ⟨_, hstep,
            le_trans (min_le_right _ _) (he ▸ hle)⟩
        · rcases List.mem_cons.mp hn with heq | hn2
          · subst heq
            exact Or.inl ⟨_, hstep,
              le_trans (min_le_left _ _) hle⟩
          · exact Or.inr ⟨n, hn2, hle⟩

theorem freqMaxStep_foldl_le_iff (C : ScannerConstraints) (f : ℚ) :
    ∀ (l : List String) (acc : Option ℚ),
      (∃ mx, l.foldl (freqMaxStep C) acc = some mx ∧ f ≤ mx) ↔
        ((∃ mx, acc = some mx ∧ f ≤ mx) ∨
         ∃ n ∈ l, f ≤ (C.axes n).max_frequency) := by
  intro l
  induction l with
  | nil =>
    intro acc
    simp
  | cons x xs ih =>
    intro acc
    rw [List.foldl_cons, ih]
    cases acc with
    | none =>
      have hstep : freqMaxStep C none x =
          some ((C.axes x).max_frequency) := rfl
      constructor
      · rintro (⟨mx, hmx, hle⟩ | ⟨n, hn, hle⟩)
        · have he := Option.some.inj (hstep ▸ hmx)
          exact Or.inr ⟨x, List.mem_cons_self _ _, he ▸ hle⟩
        · exact Or.inr ⟨n, List.mem_cons_of_mem _ hn, hle⟩
      · rintro (⟨mx, hmx, -⟩ | ⟨n, hn, hle⟩)
        · exact Option.noConfusion hmx
        · rcases List.mem_cons.mp hn with heq | hn2
          · subst heq
            exact Or.inl ⟨_, hstep, hle⟩
          · exact Or.inr ⟨n, hn2, hle⟩
    | some m =>
      have hstep := freqMaxStep_ite_eq_max C x m
      constructor
      · rintro (⟨mx, hmx, hle⟩ | ⟨n, hn, hle⟩)
        · have he := Option.some.inj (hstep ▸ hmx)
          rcases le_max_iff.mp (he ▸ hle) with h | h
          · exact Or.inr ⟨x, List.mem_cons_self _ _, h⟩
          · exact Or.inl ⟨m, rfl, h⟩
        · exact Or.inr ⟨n, List.mem_cons_of_mem _ hn, hle⟩
      · rintro (⟨mx, hmx, hle⟩ | ⟨n, hn, hle⟩)
        · have he := Option.some.inj hmx
          exact Or.inl ⟨_, hstep,
            le_trans (he ▸ hle) (le_max_right _ _)⟩
        · rcases List.mem_cons.mp hn with heq | hn2
          · subst heq
            exact Or.inl ⟨_, hstep,
              le_trans hle (le_max_left _ _)⟩
          · exact Or.inr ⟨n, hn2, hle⟩

/-- C2 (amended): while Idle, `set_scan_frequency` accepts f exactly when
f lies within the UNION hull of the axes' frequency intervals — i.e.
(smallest min_frequency over all axes) ≤ f ≤ (largest max_frequency over
all axes) — not their intersection; on acceptance f is stored verbatim
(never clipped), otherwise the old frequency is retained and an error is
reported. -/
theorem set_scan_frequency_union_bounds (C : ScannerConstraints)
    (st : LogicState) (f : ℚ) (hidle : st.module_locked = false) :
    (freqAccepted C f = true →
      set_scan_frequency C st f =
        ({ st with scan_frequency := f }, f,
          [Event.settingsChanged { frequency := some f }])) ∧
    (freqAccepted C f = false →
      set_scan_frequency C st f =
        (st, st.scan_frequency,
          [Event.logError,
           Event.settingsChanged { frequency := some st.scan_frequency }])) ∧
    (freqAccepted C f = true ↔
      (∃ n ∈ C.axisNames, (C.axes n).min_frequency ≤ f) ∧
      (∃ n ∈ C.axisNames, f ≤ (C.axes n).max_frequency)) := by
  refine ⟨fun h => by simp [set_scan_frequency, hidle, h],
          fun h => by simp [set_scan_frequency, hidle, h], ?_⟩
  have hmin := freqMinStep_foldl_le_iff C f C.axisNames none
  have hmax := freqMaxStep_foldl_le_iff C f C.axisNames none
  rw [freqAccepted, freqBounds, foldl_pair_split]
  cases h1 : C.axisNames.foldl (freqMinStep C) none with
  | none =>
    rw [h1] at hmin
    simp only [reduceCtorEq, false_and, exists_false, false_or] at hmin
    cases h2 : C.axisNames.foldl (freqMaxStep C) none <;>
      simp [← hmin]
  | some mn =>
    rw [h1] at hmin
    simp only [Option.some.injEq, exists_eq_left', reduceCtorEq,
      false_and, exists_false, false_or] at hmin
    cases h2 : C.axisNames.foldl (freqMaxStep C) none with
    | none =>
      rw [h2] at hmax
      simp only [reduceCtorEq, false_and, exists_false, false_or] at hmax
      simp [← hmax]
    | some mx =>
      rw [h2] at hmax
      simp only [Option.some.injEq, exists_eq_left', reduceCtorEq,
        false_and, exists_false, false_or] at hmax
      simpa using and_congr hmin hmax

theorem set_scan_frequency_union_bounds_witness :
    set_scan_frequency constrW idleW 2 =
      ({ idleW with scan_frequency := 2 }, 2,
        [Event.settingsChanged { frequency := some 2 }]) :=
  (set_scan_frequency_union_bounds constrW idleW 2 rfl).1 (by decide)

/-- C2 counterexample: the fixture axes x and y have disjoint frequency
intervals [0,1] and [2,3], whose intersection is empty, so the claim
demands rejection of every value — but the code accepts 2 (it lies in the
union hull [0,3]), stores it, and reports no error. -/
theorem set_scan_frequency_intersection_cex :
    specFrequencyAccepted constrW 2 = false ∧
    idleW.scan_frequency = 7 ∧
    (set_scan_frequency constrW idleW 2).1.scan_frequency = 2 ∧
    Event.logError ∉ (set_scan_frequency constrW idleW 2).2.2 := by
  decide

/-- C3 (amended): `restore_from_history(i)` while Idle reports an
out-of-range error and leaves cursor and settings unchanged exactly when
i ≥ len(history) or i < -len(history); a negative i with -len ≤ i < 0 is
accepted through Python negative indexing — such a call (when it
succeeds) restores from the entry at position len+i, sets the cursor to i
itself (a negative cursor), and reports no error. -/
theorem restore_from_history_out_of_range (C : ScannerConstraints)
    (st : LogicState) (i : ℤ) (hidle : st.module_locked = false) :
    ((st.scan_history.length ≤ i ∨ i + st.scan_history.length < 0) →
      restore_from_history C st i = some (st, [Event.logError])) ∧
    (∀ st1 evs, 0 ≤ i + st.scan_history.length → i < 0 →
      restore_from_history C st i = some (st1, evs) →
      st1.curr_history_index = i ∧ Event.logError ∉ evs) := by
  constructor
  · intro hout
    rw [restore_from_history, if_neg (by simp [hidle])]
    have hnone : pyGetFrame st.scan_history i = none := by
      rcases hout with h1 | h2
      · have h0 : 0 ≤ i := le_trans (Int.ofNat_nonneg _) h1
        rw [pyGetFrame, if_pos h0]
        apply List.get?_len_le
        omega
      · have h0 : ¬ 0 ≤ i := by omega
        rw [pyGetFrame, if_neg h0, if_neg (by omega)]
    rw [hnone]
  · intro st1 evs hge hneg hsucc
    rw [restore_from_history, if_neg (by simp [hidle])] at hsucc
    have hlt : (i + (st.scan_history.length : ℤ)).toNat <
        st.scan_history.length := by omega
    rw [pyGetFrame, if_neg (not_le.mpr hneg), if_pos hge,
      List.get?_eq_get hlt] at hsucc
    cases hloop : restoreLoop C
        (st.scan_history.get ⟨(i + (st.scan_history.length : ℤ)).toNat,
          hlt⟩).scan_resolution
        (st.scan_history.get ⟨(i + (st.scan_history.length : ℤ)).toNat,
          hlt⟩).scan_range
        (st.scan_history.get ⟨(i + (st.scan_history.length : ℤ)).toNat,
          hlt⟩).scan_axes.enum st with
    | none =>
      simp only [hloop, Option.map_none'] at hsucc
      exact Option.noConfusion hsucc
    | some st2 =>
      simp only [hloop, Option.map_some', Option.some.injEq,
        Prod.mk.injEq] at hsucc
      obtain ⟨h1, h2⟩ := hsucc
      constructor
      · rw [← h1]
      · rw [← h2]
        simp

theorem restore_from_history_out_of_range_witness :
    restore_from_history constrW histW 5 = some (histW, [Event.logError]) :=
  (restore_from_history_out_of_range constrW histW 5 rfl).1 (by decide)

/-- C3 counterexample: with one history frame and an Idle state, index -1
is accepted via Python negative indexing: the call succeeds, the cursor
becomes -1 (changed from 0), the stored frequency is overwritten with the
frame's value 5, and no error is reported — the claim demands an
out-of-range error and unchanged state for every negative index. -/
theorem restore_from_history_negative_index_cex :
    histW.curr_history_index = 0 ∧
    histW.scan_frequency = 7 ∧
    (restore_from_history constrW histW (-1)).map
      (fun p => p.1.curr_history_index) = some (-1) ∧
    (restore_from_history constrW histW (-1)).map
      (fun p => p.1.scan_frequency) = some 5 ∧
    (restore_from_history constrW histW (-1)).map
      (fun p => decide (Event.logError ∈ p.2)) = some false := by
  decide

/-- C4: after a successful start (Idle, device echoes the requested
configuration, start_scan succeeds) the polling interval equals
clamp(lineLength / frequency, min_scan_update_interval,
max_scan_update_interval) — computed as max(min_interval, min(
max_interval, lineLength / frequency)) — where lineLength is the first
scanned axis's resolution for a 2-axis scan and 1 for a 1-axis scan; the
single-shot timer is re-pointed to the scan handler at that interval. -/
theorem toggle_scan_adaptive_interval (dev : Scanner) (cfg : LogicConfig)
    (st : LogicState) (a b : String) (ra rb : ℚ × ℚ) (sa sb : ℤ)
    (hidle : st.module_locked = false) :
    ((dlookup st.scan_ranges a = some ra →
      dlookup st.scan_resolution a = some sa →
      dev.configure_scan
          { axes := [a], range := [ra], resolution := [sa],
            frequency := st.scan_frequency } =
        { axes := [a], range := [ra], resolution := [sa],
          frequency := st.scan_frequency } →
      0 ≤ dev.start_scan →
      toggle_scan dev cfg st true (some [a]) =
        some ({ st with
            module_locked := true,
            current_scan := some [a],
            scan_update_interval :=
              max cfg.min_scan_update_interval
                (min cfg.max_scan_update_interval
                  ((1 : ℚ) / st.scan_frequency)),
            timer_handler := TimerHandler.scanLoop,
            timer_interval :=
              max cfg.min_scan_update_interval
                (min cfg.max_scan_update_interval
                  ((1 : ℚ) / st.scan_frequency)) },
          0, [Event.scanStateChanged true (some [a])]))) ∧
    ((dlookup st.scan_ranges a = some ra →
      dlookup st.scan_ranges b = some rb →
      dlookup st.scan_resolution a = some sa →
      dlookup st.scan_resolution b = some sb →
      dev.configure_scan
          { axes := [a, b], range := [ra, rb], resolution := [sa, sb],
            frequency := st.scan_frequency } =
        { axes := [a, b], range := [ra, rb], resolution := [sa, sb],
          frequency := st.scan_frequency } →
      0 ≤ dev.start_scan →
      toggle_scan dev cfg st true (some [a, b]) =
        some ({ st with
            module_locked := true,
            current_scan := some [a, b],
            scan_update_interval :=
              max cfg.min_scan_update_interval
                (min cfg.max_scan_update_interval
                  ((sa : ℚ) / st.scan_frequency)),
            timer_handler := TimerHandler.scanLoop,
            timer_interval :=
              max cfg.min_scan_update_interval
                (min cfg.max_scan_update_interval
                  ((sa : ℚ) / st.scan_frequency)) },
          0, [Event.scanStateChanged true (some [a, b])]))) := by
  constructor
  · intro hra hsa hecho hstart
    have hns : ¬ dev.start_scan < 0 := not_lt.mpr hstart
    simp [toggle_scan, hidle, lookupAll, hra, hsa, hecho, reconcileLoop,
      hns]
  · intro hra hrb hsa hsb hecho hstart
    have hns : ¬ dev.start_scan < 0 := not_lt.mpr hstart
    simp [toggle_scan, hidle, lookupAll, hra, hrb, hsa, hsb, hecho,
      reconcileLoop, hns]

theorem toggle_scan_adaptive_interval_witness :
    ∃ out, toggle_scan devEchoW cfgW idleFreq100 true (some [xN, yN]) =
        some out ∧
      out.1.scan_update_interval = 1/2 ∧ out.2.1 = 0 := by
  have h := (toggle_scan_adaptive_interval devEchoW cfgW idleFreq100
    xN yN (0, 1) (0, 1) 50 50 rfl).2 (by decide) (by decide) (by decide)
    (by decide) rfl (by decide)
  refine ⟨_, h, ?_, rfl⟩
  show max cfgW.min_scan_update_interval
    (min cfgW.max_scan_update_interval (((50 : ℤ) : ℚ) / 100)) = 1/2
  rw [cfgW]
  norm_num

end ScanningProbe
